import Mathlib

/-!
Shallow embedding of the deformation / elastic-simulation / history core of
`src/main.js` (a virtual clay sculpting app).

JavaScript floats are modelled as real numbers.  The flat `Float32Array`
buffers are modelled as `List Vec3`: every access in the source is
vertex-aligned (indices `i3 = 3*i`, `i3+1`, `i3+2`).  Operations that can
throw in JavaScript (`TypedArray.set` with a source longer than the target,
`velocities.fill(0)` on `null`) return `Option`, with `none` standing for a
thrown exception.  A `null` buffer is `none`.
-/

namespace Clay

/-- One (x, y, z) triple of a position / velocity / rest buffer. -/
@[ext] structure Vec3 where
  x : ℝ
  y : ℝ
  z : ℝ

/-- Keys of the `MATERIALS` preset table (main.js lines 18-69). -/
inductive MaterialKey | clay | gold | glass | chrome | jelly
deriving DecidableEq

/-- `MATERIALS[m].isJelly` (main.js lines 27, 37, 47, 57, 67): only the
jelly preset has `isJelly: true`. -/
def materialIsJelly : MaterialKey → Bool
  | .jelly => true
  | _ => false

/-- Keys of the `SHAPES` table (main.js lines 72-78). -/
inductive ShapeKey | cylinder | sphere | cone | cube | torus
deriving DecidableEq

/-- `CONFIG.minRadius = 0.2` (main.js line 9). -/
noncomputable def minRadius : ℝ := 0.2

/-- `CONFIG.maxRadius = 3.5` (main.js line 10). -/
noncomputable def maxRadius : ℝ := 3.5

/-- `MAX_HISTORY = 20` (main.js line 84). -/
def MAX_HISTORY : ℕ := 20

/-- The mutable global state of main.js touched by the core operations:
`currentMaterial`, `currentShape` (lines 81-82), the mesh position buffer
(`clayMesh.geometry.attributes.position`), `originalPositions` (line 446,
always non-null after the start-up call on line 452), `historyStack`
(line 83), and the jelly buffers `velocities`, `restPositions`
(lines 455-456; `null` is modelled as `none`). -/
structure ClayState where
  currentMaterial : MaterialKey
  currentShape : ShapeKey
  positions : List Vec3
  originalPositions : List Vec3
  historyStack : List (List Vec3)
  velocities : Option (List Vec3)
  restPositions : Option (List Vec3)

/-- The start-up state (main.js lines 81-84, 438-452): clay material,
cylinder shape, empty history, no jelly buffers, original positions stored
from the freshly created geometry.  The geometry factory `gf` abstracts
`createGeometry` (main.js lines 411-435), whose vertex buffers are built by
the external three.js library; only the produced buffer matters here. -/
def initState (gf : ShapeKey → List Vec3) : ClayState :=
  { currentMaterial := .clay
    currentShape := .cylinder
    positions := gf .cylinder
    originalPositions := gf .cylinder
    historyStack := []
    velocities := none
    restPositions := none }

/-- `target.set(source)` on a `Float32Array` (offset 0): overwrites the first
`source.length` entries, keeps the rest, and throws a `RangeError` (modelled
as `none`) when the source is longer than the target. -/
def jsSet (target source : List Vec3) : Option (List Vec3) :=
  if source.length ≤ target.length then some (source ++ target.drop source.length)
  else none

/-- `saveToHistory()` (main.js lines 509-515): push a deep copy of the
current position buffer, then `shift()` away the oldest entry if the stack
exceeds `MAX_HISTORY`. -/
def saveToHistory (s : ClayState) : ClayState :=
  let pushed := s.historyStack ++ [s.positions]
  { s with historyStack := if MAX_HISTORY < pushed.length then pushed.tail else pushed }

/-- `undo()` (main.js lines 517-533): return `false` on an empty stack;
otherwise `pop()` the most recent snapshot, `set` it into the live position
buffer, `set` it into `restPositions` when that buffer is non-null, and
return `true`.  `velocities` is never touched. -/
def undo (s : ClayState) : Option (Bool × ClayState) :=
  match s.historyStack.getLast? with
  | none => some (false, s)
  | some previousState =>
    match jsSet s.positions previousState with
    | none => none
    | some pos =>
      match s.restPositions with
      | none => some (true, { s with positions := pos, historyStack := s.historyStack.dropLast })
      | some rest =>
        match jsSet rest previousState with
        | none => none
        | some rest2 =>
          some (true, { s with positions := pos, historyStack := s.historyStack.dropLast,
                               restPositions := some rest2 })

/-- `resetShape()` (main.js lines 535-553): `set` the original snapshot into
the live buffer, clear the history, and — when `restPositions` is non-null —
`set` the original snapshot into `restPositions` and run
`velocities.fill(0)`.  The last call throws a `TypeError` (here `none`) when
`velocities` is `null`, which the source does not guard against. -/
def resetShape (s : ClayState) : Option ClayState :=
  match jsSet s.positions s.originalPositions with
  | none => none
  | some pos =>
    match s.restPositions with
    | none => some { s with positions := pos, historyStack := [] }
    | some rest =>
      match jsSet rest s.originalPositions with
      | none => none
      | some rest2 =>
        match s.velocities with
        | none => none
        | some vel =>
          some { s with positions := pos, historyStack := [],
                        restPositions := some rest2,
                        velocities := some (vel.map fun _ => ⟨0, 0, 0⟩) }

/-- `changeShape(newShape)` (main.js lines 555-580): no-op when unchanged;
otherwise regenerate the geometry, re-capture it as `originalPositions`,
clear the history, and re-run `initJellyPhysics()` (zero velocities, rest
positions copied from the new buffer) only when the current material is
jelly.  A stale non-jelly `restPositions` buffer is left as it was. -/
def changeShape (gf : ShapeKey → List Vec3) (newShape : ShapeKey) (s : ClayState) : ClayState :=
  if newShape = s.currentShape then s
  else
    let pos := gf newShape
    if materialIsJelly s.currentMaterial then
      { s with currentShape := newShape, positions := pos, originalPositions := pos,
               historyStack := [],
               velocities := some (List.replicate pos.length ⟨0, 0, 0⟩),
               restPositions := some pos }
    else
      { s with currentShape := newShape, positions := pos, originalPositions := pos,
               historyStack := [] }

/-- `changeMaterial(newMaterial)` (main.js lines 582-598): no-op when
unchanged; otherwise swap the material and either run `initJellyPhysics()`
(fresh zero velocities, rest positions seeded from the live buffer) or —
exactly as in the source — set only `velocities = null`, keeping
`restPositions`. -/
def changeMaterial (newMaterial : MaterialKey) (s : ClayState) : ClayState :=
  if newMaterial = s.currentMaterial then s
  else if materialIsJelly newMaterial then
    { s with currentMaterial := newMaterial,
             velocities := some (List.replicate s.positions.length ⟨0, 0, 0⟩),
             restPositions := some s.positions }
  else
    { s with currentMaterial := newMaterial, velocities := none }

/-- `Math.atan2 y x`, as the argument of the complex number `x + y*i`
(zero at the positive x-axis, values in `(-π, π]`, `atan2 0 0 = 0`). -/
noncomputable def atan2 (y x : ℝ) : ℝ := Complex.arg ⟨x, y⟩

/-- The per-vertex position update of `sculpt` (main.js lines 704-719):
inside the vertical influence cutoff, blend the radius toward the clamped
target radius with a Gaussian falloff and rebuild (x, z) at the unchanged
angle; outside the cutoff, leave the vertex alone. -/
noncomputable def sculptVertex (strength sculptRadius : ℝ) (target : Vec3) (v : Vec3) : Vec3 :=
  let targetRadius := max minRadius (min maxRadius |target.x|)
  let dy := |v.y - target.y|
  if dy < sculptRadius then
    let currentRadius := Real.sqrt (v.x * v.x + v.z * v.z)
    let factor := Real.exp (-(dy * dy) / 0.1)
    let newRadius := currentRadius + (targetRadius - currentRadius) * factor * strength
    let angle := atan2 v.z v.x
    ⟨Real.cos angle * newRadius, v.y, Real.sin angle * newRadius⟩
  else
    v

/-- The `restPositions` side channel of `sculpt` (main.js lines 722-725):
for every affected vertex index of the position buffer, overwrite the x and z
components of the rest buffer with the new position; y stays.  Writes beyond
the rest buffer's length are silently dropped (typed-array semantics). -/
noncomputable def sculptRest (strength sculptRadius : ℝ) (target : Vec3)
    (pos rest : List Vec3) : List Vec3 :=
  List.zipWith (fun i r =>
    match pos.get? i with
    | some v =>
      if |v.y - target.y| < sculptRadius then
        let targetRadius := max minRadius (min maxRadius |target.x|)
        let currentRadius := Real.sqrt (v.x * v.x + v.z * v.z)
        let factor := Real.exp (-(|v.y - target.y| * |v.y - target.y|) / 0.1)
        let newRadius := currentRadius + (targetRadius - currentRadius) * factor * strength
        let angle := atan2 v.z v.x
        ⟨Real.cos angle * newRadius, r.y, Real.sin angle * newRadius⟩
      else r
    | none => r) (List.range rest.length) rest

/-- The `velocities` impulse of `sculpt` (main.js lines 728-732): for every
affected vertex index, add `(targetRadius - currentRadius) * factor * 0.5`
along the vertex's radial direction to the x and z velocity components. -/
noncomputable def sculptVel (sculptRadius : ℝ) (target : Vec3)
    (pos vel : List Vec3) : List Vec3 :=
  List.zipWith (fun i w =>
    match pos.get? i with
    | some v =>
      if |v.y - target.y| < sculptRadius then
        let targetRadius := max minRadius (min maxRadius |target.x|)
        let currentRadius := Real.sqrt (v.x * v.x + v.z * v.z)
        let factor := Real.exp (-(|v.y - target.y| * |v.y - target.y|) / 0.1)
        let impulse := (targetRadius - currentRadius) * factor * 0.5
        let angle := atan2 v.z v.x
        ⟨w.x + Real.cos angle * impulse, w.y, w.z + Real.sin angle * impulse⟩
      else w
    | none => w) (List.range vel.length) vel

/-- `sculpt(intersectPoint)` (main.js lines 694-746): map the per-vertex
update over the position buffer; when `restPositions` is non-null also update
it, and additionally update `velocities` when that buffer is non-null too
(the impulse block is nested inside `if (restPositions)`). -/
noncomputable def sculpt (strength sculptRadius : ℝ) (target : Vec3) (s : ClayState) : ClayState :=
  { s with
    positions := s.positions.map (sculptVertex strength sculptRadius target)
    restPositions := s.restPositions.map (sculptRest strength sculptRadius target s.positions)
    velocities :=
      match s.restPositions with
      | none => s.velocities
      | some _ => s.velocities.map (sculptVel sculptRadius target s.positions) }

/-- The per-vertex spring-damper update of `updateJellyPhysics` (main.js
lines 475-502), returning (new velocity, new position): spring acceleration
toward the rest position with stiffness 15.0, damping 0.85, per-component
clamp to [-2, 2], then explicit Euler position update. -/
noncomputable def jellyVertex (delta : ℝ) (rest pos vel : Vec3) : Vec3 × Vec3 :=
  let v1 : Vec3 := ⟨vel.x + (rest.x - pos.x) * 15 * delta,
                    vel.y + (rest.y - pos.y) * 15 * delta,
                    vel.z + (rest.z - pos.z) * 15 * delta⟩
  let v2 : Vec3 := ⟨v1.x * 0.85, v1.y * 0.85, v1.z * 0.85⟩
  let v3 : Vec3 := ⟨max (-2) (min 2 v2.x), max (-2) (min 2 v2.y), max (-2) (min 2 v2.z)⟩
  (v3, ⟨pos.x + v3.x * delta, pos.y + v3.y * delta, pos.z + v3.z * delta⟩)

/-- `updateJellyPhysics(delta)` (main.js lines 465-506): early return unless
the current material is jelly and `velocities` is non-null; then update every
vertex of the position buffer.  Reading `restPositions[i3]` with
`restPositions === null` would throw (`none`) as soon as the loop runs; this
state is unreachable because `initJellyPhysics` always sets both buffers.
Out-of-range reads (impossible for length-matched buffers) are given the
zero vector here, where JavaScript would produce NaN. -/
noncomputable def updateJellyPhysics (delta : ℝ) (s : ClayState) : Option ClayState :=
  if ¬ materialIsJelly s.currentMaterial then some s
  else
    match s.velocities with
    | none => some s
    | some vel =>
      match s.restPositions with
      | none => if s.positions.length = 0 then some s else none
      | some rest =>
        let pairs := (List.range s.positions.length).map fun i =>
          jellyVertex delta (rest.getD i ⟨0, 0, 0⟩) (s.positions.getD i ⟨0, 0, 0⟩)
            (vel.getD i ⟨0, 0, 0⟩)
        some { s with positions := pairs.map Prod.snd,
                      velocities := some (pairs.map Prod.fst) }

/-- `n` animation-loop ticks of the elastic simulator at a fixed `delta`
(main.js lines 1258-1295 call `updateJellyPhysics(delta)` once per frame). -/
noncomputable def jellyIter (delta : ℝ) (n : ℕ) (s : ClayState) : ClayState :=
  (fun t => (updateJellyPhysics delta t).getD t)^[n] s

/-- Distance of a vertex from the rotation axis, as computed on main.js line
711: `Math.sqrt(x*x + z*z)`. -/
noncomputable def radiusOf (v : Vec3) : ℝ := Real.sqrt (v.x * v.x + v.z * v.z)

/-- States reachable from start-up through the user-triggerable core
operations.  Slider bounds (main.js lines 1069, 1075): sculpt strength in
[0.01, 0.5], sculpt radius in [0.1, 2.0]; the frame delta is nonnegative. -/
inductive Reach (gf : ShapeKey → List Vec3) : ClayState → Prop
  | init : Reach gf (initState gf)
  | sculptStep (s : ClayState) (strength sculptRadius : ℝ) (target : Vec3)
      (hs : Reach gf s) (h1 : 0.01 ≤ strength) (h2 : strength ≤ 0.5)
      (h3 : 0.1 ≤ sculptRadius) (h4 : sculptRadius ≤ 2) :
      Reach gf (sculpt strength sculptRadius target s)
  | saveStep (s : ClayState) (hs : Reach gf s) : Reach gf (saveToHistory s)
  | undoStep (s s' : ClayState) (b : Bool) (hs : Reach gf s)
      (h : undo s = some (b, s')) : Reach gf s'
  | resetStep (s s' : ClayState) (hs : Reach gf s)
      (h : resetShape s = some s') : Reach gf s'
  | shapeStep (s : ClayState) (sh : ShapeKey) (hs : Reach gf s) :
      Reach gf (changeShape gf sh s)
  | materialStep (s : ClayState) (m : MaterialKey) (hs : Reach gf s) :
      Reach gf (changeMaterial m s)
  | physicsStep (s s' : ClayState) (delta : ℝ) (hs : Reach gf s) (h0 : 0 ≤ delta)
      (h : updateJellyPhysics delta s = some s') : Reach gf s'

/-- A concrete geometry factory used for concrete runs: shapes have
different vertex counts, as the real `createGeometry` buffers do (a
64-segment open cylinder has 4225 vertices, the 16/64/16-segment box 4998). -/
def gfDemo : ShapeKey → List Vec3
  | .cube => [⟨0, 0, 0⟩, ⟨0, 0, 0⟩]
  | _ => [⟨0, 0, 0⟩]

/-- State after the user selects the jelly material at start-up. -/
def s1Demo : ClayState := changeMaterial .jelly (initState gfDemo)

/-- State after the user then selects the clay material again. -/
def s2Demo : ClayState := changeMaterial .clay s1Demo

/-- State after the user then selects the cube shape. -/
def s3Demo : ClayState := changeShape gfDemo .cube s2Demo

/-- A one-vertex clay state used to evaluate the sculpt theorems on a
concrete input. -/
def sculptDemo : ClayState :=
  { currentMaterial := .clay
    currentShape := .cylinder
    positions := [⟨1, 0, 0⟩]
    originalPositions := [⟨1, 0, 0⟩]
    historyStack := []
    velocities := none
    restPositions := none }

/-- A one-vertex jelly-mode state at rest (position equals rest position,
zero velocity), used to evaluate the elastic-step theorem concretely. -/
def jellyDemo : ClayState :=
  { currentMaterial := .jelly
    currentShape := .cylinder
    positions := [⟨1, 2, 3⟩]
    originalPositions := [⟨1, 2, 3⟩]
    historyStack := []
    velocities := some [⟨0, 0, 0⟩]
    restPositions := some [⟨1, 2, 3⟩] }

/-- A one-vertex state with one history snapshot and both elastic buffers,
used to evaluate the undo / reset theorems on a concrete input. -/
def undoDemo : ClayState :=
  { currentMaterial := .jelly
    currentShape := .cylinder
    positions := [⟨0, 0, 0⟩]
    originalPositions := [⟨0, 0, 0⟩]
    historyStack := [[⟨1, 2, 3⟩]]
    velocities := some [⟨4, 5, 6⟩]
    restPositions := some [⟨7, 8, 9⟩] }

/-! ### List and arithmetic helpers -/

theorem map_getD_range (l : List Vec3) (d : Vec3) :
    (List.range l.length).map (fun i => l.getD i d) = l := by
  induction l with
  | nil => simp
  | cons a t ih =>
      rw [List.length_cons, List.range_succ_eq_map, List.map_cons, List.map_map]
      have h2 : ((fun i => (a :: t).getD i d) ∘ Nat.succ) = fun i => t.getD i d := by
        funext i
        simp [List.getD_cons_succ]
      rw [h2, ih]
      simp [List.getD_cons_zero]

theorem lt_length_of_getElem? {α : Type _} {l : List α} {i : ℕ} {v : α}
    (h : l[i]? = some v) : i < l.length := by
  by_contra hc
  rw [List.getElem?_eq_none (by omega)] at h
  exact Option.noConfusion h

theorem getD_of_getElem? {α : Type _} {l : List α} {i : ℕ} {v : α} (d : α)
    (h : l[i]? = some v) : l.getD i d = v := by
  simp [List.getD_eq_getElem?_getD, h]

theorem tail_append_singleton (h : List (List Vec3)) (b : List Vec3) (hne : h ≠ []) :
    (h ++ [b]).tail = h.tail ++ [b] := by
  cases h with
  | nil => exact absurd rfl hne
  | cons a t => simp

theorem blend_between (r t c : ℝ) (hc0 : 0 ≤ c) (hc1 : c ≤ 1) :
    min r t ≤ r + (t - r) * c ∧ r + (t - r) * c ≤ max r t := by
  rcases le_total r t with h | h
  · rw [min_eq_left h, max_eq_right h]
    constructor <;> nlinarith
  · rw [min_eq_right h, max_eq_left h]
    constructor <;> nlinarith

theorem blend_nonneg (r t c : ℝ) (hr : 0 ≤ r) (ht : 0 ≤ t) (hc0 : 0 ≤ c) (hc1 : c ≤ 1) :
    0 ≤ r + (t - r) * c := by nlinarith

theorem blend_pos (r t c : ℝ) (hr : 0 ≤ r) (ht : 0 < t) (hc0 : 0 < c) (hc1 : c ≤ 1) :
    0 < r + (t - r) * c := by nlinarith

theorem factor_le_one (x : ℝ) : Real.exp (-(x * x) / 0.1) ≤ 1 := by
  rw [Real.exp_le_one_iff, div_nonpos_iff]
  right
  refine ⟨?_, by norm_num⟩
  have : 0 ≤ x * x := mul_self_nonneg x
  linarith

theorem targetRadius_lb (u : ℝ) : minRadius ≤ max minRadius (min maxRadius u) :=
  le_max_left _ _

theorem targetRadius_ub (u : ℝ) : max minRadius (min maxRadius u) ≤ maxRadius := by
  apply max_le
  · rw [minRadius, maxRadius]; norm_num
  · exact min_le_left _ _

theorem targetRadius_pos (u : ℝ) : 0 < max minRadius (min maxRadius u) :=
  lt_of_lt_of_le (by rw [minRadius]; norm_num) (targetRadius_lb u)

theorem arg_cos_sin_mul (θ R : ℝ) (hR : 0 < R) (hθ : θ ∈ Set.Ioc (-Real.pi) Real.pi) :
    Complex.arg ⟨Real.cos θ * R, Real.sin θ * R⟩ = θ := by
  have key : (⟨Real.cos θ * R, Real.sin θ * R⟩ : ℂ)
      = (R : ℂ) * (Complex.cos θ + Complex.sin θ * Complex.I) := by
    apply Complex.ext
    · simp [Complex.mul_re, Complex.add_re, Complex.mul_im, Complex.add_im,
        Complex.I_re, Complex.I_im, Complex.cos_ofReal_re, Complex.sin_ofReal_re,
        Complex.cos_ofReal_im, Complex.sin_ofReal_im]
      ring
    · simp [Complex.mul_re, Complex.add_re, Complex.mul_im, Complex.add_im,
        Complex.I_re, Complex.I_im, Complex.cos_ofReal_re, Complex.sin_ofReal_re,
        Complex.cos_ofReal_im, Complex.sin_ofReal_im]
      ring
  rw [key, Complex.arg_real_mul _ hR, Complex.arg_cos_add_sin_mul_I hθ]

theorem sqrt_cos_sin_mul (θ R : ℝ) (hR : 0 ≤ R) :
    Real.sqrt (Real.cos θ * R * (Real.cos θ * R) + Real.sin θ * R * (Real.sin θ * R)) = R := by
  have key : Real.cos θ * R * (Real.cos θ * R) + Real.sin θ * R * (Real.sin θ * R) = R ^ 2 := by
    have h := Real.sin_sq_add_cos_sq θ
    linear_combination R ^ 2 * h
  rw [key, Real.sqrt_sq hR]

/-! ### Facts about the per-vertex sculpt update -/

theorem sculptVertex_y (strength sculptRadius : ℝ) (target v : Vec3) :
    (sculptVertex strength sculptRadius target v).y = v.y := by
  simp only [sculptVertex]
  split <;> rfl

theorem gaussian_strength_nonneg (strength dy : ℝ) (hs0 : 0 ≤ strength) :
    0 ≤ Real.exp (-(dy * dy) / 0.1) * strength :=
  mul_nonneg (Real.exp_pos _).le hs0

theorem gaussian_strength_le_one (strength dy : ℝ) (hs0 : 0 ≤ strength) (hs1 : strength ≤ 1) :
    Real.exp (-(dy * dy) / 0.1) * strength ≤ 1 :=
  mul_le_one₀ (factor_le_one dy) hs0 hs1

theorem radiusOf_cos_sin (θ R yy : ℝ) (hR : 0 ≤ R) :
    radiusOf ⟨Real.cos θ * R, yy, Real.sin θ * R⟩ = R := by
  simp only [radiusOf]
  exact sqrt_cos_sin_mul θ R hR

theorem sculptVertex_affected (strength sculptRadius : ℝ) (target v : Vec3)
    (hdy : |v.y - target.y| < sculptRadius) :
    sculptVertex strength sculptRadius target v
      = ⟨Real.cos (atan2 v.z v.x) * (Real.sqrt (v.x * v.x + v.z * v.z) +
            (max minRadius (min maxRadius |target.x|) - Real.sqrt (v.x * v.x + v.z * v.z)) *
            Real.exp (-(|v.y - target.y| * |v.y - target.y|) / 0.1) * strength),
         v.y,
         Real.sin (atan2 v.z v.x) * (Real.sqrt (v.x * v.x + v.z * v.z) +
            (max minRadius (min maxRadius |target.x|) - Real.sqrt (v.x * v.x + v.z * v.z)) *
            Real.exp (-(|v.y - target.y| * |v.y - target.y|) / 0.1) * strength)⟩ := by
  simp only [sculptVertex, if_pos hdy]

theorem radiusOf_sculptVertex (strength sculptRadius : ℝ) (target v : Vec3)
    (hs0 : 0 ≤ strength) (hs1 : strength ≤ 1)
    (hdy : |v.y - target.y| < sculptRadius) :
    radiusOf (sculptVertex strength sculptRadius target v)
      = radiusOf v + (max minRadius (min maxRadius |target.x|) - radiusOf v) *
          (Real.exp (-(|v.y - target.y| * |v.y - target.y|) / 0.1) * strength) := by
  have hc0 := gaussian_strength_nonneg strength (|v.y - target.y|) hs0
  have hc1 := gaussian_strength_le_one strength (|v.y - target.y|) hs0 hs1
  have hr0 : 0 ≤ radiusOf v := Real.sqrt_nonneg _
  have ht0 : 0 ≤ max minRadius (min maxRadius |target.x|) := (targetRadius_pos _).le
  have hR : 0 ≤ radiusOf v + (max minRadius (min maxRadius |target.x|) - radiusOf v) *
      (Real.exp (-(|v.y - target.y| * |v.y - target.y|) / 0.1) * strength) :=
    blend_nonneg _ _ _ hr0 ht0 hc0 hc1
  rw [← mul_assoc] at hR
  rw [sculptVertex_affected strength sculptRadius target v hdy]
  rw [radiusOf_cos_sin _ _ _ (by simpa [radiusOf] using hR)]
  simp only [radiusOf]
  rw [mul_assoc]

theorem atan2_sculptVertex (strength sculptRadius : ℝ) (target v : Vec3)
    (hs0 : 0 < strength) (hs1 : strength ≤ 1) :
    atan2 (sculptVertex strength sculptRadius target v).z
      (sculptVertex strength sculptRadius target v).x = atan2 v.z v.x := by
  by_cases hdy : |v.y - target.y| < sculptRadius
  · have hc0 : 0 < Real.exp (-(|v.y - target.y| * |v.y - target.y|) / 0.1) * strength :=
      mul_pos (Real.exp_pos _) hs0
    have hc1 := gaussian_strength_le_one strength (|v.y - target.y|) hs0.le hs1
    have hr0 : 0 ≤ Real.sqrt (v.x * v.x + v.z * v.z) := Real.sqrt_nonneg _
    have ht0 : 0 < max minRadius (min maxRadius |target.x|) := targetRadius_pos _
    have hR : 0 < Real.sqrt (v.x * v.x + v.z * v.z) +
        (max minRadius (min maxRadius |target.x|) - Real.sqrt (v.x * v.x + v.z * v.z)) *
        (Real.exp (-(|v.y - target.y| * |v.y - target.y|) / 0.1) * strength) :=
      blend_pos _ _ _ hr0 ht0 hc0 hc1
    rw [← mul_assoc] at hR
    rw [sculptVertex_affected strength sculptRadius target v hdy]
    exact arg_cos_sin_mul (atan2 v.z v.x) _ hR (Complex.arg_mem_Ioc _)
  · simp only [sculptVertex, if_neg hdy]

theorem sculpt_positions (strength sculptRadius : ℝ) (target : Vec3) (s : ClayState) :
    (sculpt strength sculptRadius target s).positions
      = s.positions.map (sculptVertex strength sculptRadius target) := rfl

theorem sculpt_iterate_getElem? (strength sculptRadius : ℝ) (target : Vec3)
    (s : ClayState) (i : ℕ) (v : Vec3) (hv : s.positions[i]? = some v) (n : ℕ) :
    ((fun st => sculpt strength sculptRadius target st)^[n] s).positions[i]?
      = some ((sculptVertex strength sculptRadius target)^[n] v) := by
  induction n with
  | zero => simpa using hv
  | succ n ih =>
      rw [Function.iterate_succ_apply', Function.iterate_succ_apply', sculpt_positions,
        List.getElem?_map, ih, Option.map_some']

theorem sculptVertex_iterate_y (strength sculptRadius : ℝ) (target v : Vec3) (n : ℕ) :
    ((sculptVertex strength sculptRadius target)^[n] v).y = v.y := by
  induction n with
  | zero => rfl
  | succ n ih => rw [Function.iterate_succ_apply', sculptVertex_y, ih]

/-! ### History effects of each operation -/

theorem jsSet_eq_of_length (tgt src : List Vec3) (h : src.length = tgt.length) :
    jsSet tgt src = some src := by
  rw [jsSet, if_pos (le_of_eq h), h, List.drop_length, List.append_nil]

theorem sculpt_historyStack (strength sculptRadius : ℝ) (target : Vec3) (s : ClayState) :
    (sculpt strength sculptRadius target s).historyStack = s.historyStack := rfl

theorem saveToHistory_length_le (s : ClayState)
    (h : s.historyStack.length ≤ MAX_HISTORY) :
    (saveToHistory s).historyStack.length ≤ MAX_HISTORY := by
  simp only [saveToHistory]
  split
  · rename_i hgt
    simp only [List.length_tail, List.length_append, List.length_cons, List.length_nil]
    omega
  · rename_i hle
    simp only [List.length_append, List.length_cons, List.length_nil] at hle ⊢
    omega

theorem undo_history_length (s s' : ClayState) (b : Bool) (h : undo s = some (b, s')) :
    s'.historyStack.length ≤ s.historyStack.length := by
  cases hl : s.historyStack.getLast? with
  | none =>
      simp only [undo, hl, Option.some.injEq, Prod.mk.injEq] at h
      rw [← h.2]
  | some prev =>
      cases hp : jsSet s.positions prev with
      | none =>
          simp only [undo, hl, hp] at h
          exact Option.noConfusion h
      | some pos =>
          cases hr : s.restPositions with
          | none =>
              simp only [undo, hl, hp, hr, Option.some.injEq, Prod.mk.injEq] at h
              rw [← h.2]
              simp only [List.length_dropLast]
              omega
          | some rest =>
              cases hq : jsSet rest prev with
              | none =>
                  simp only [undo, hl, hp, hr, hq] at h
                  exact Option.noConfusion h
              | some rest2 =>
                  simp only [undo, hl, hp, hr, hq, Option.some.injEq, Prod.mk.injEq] at h
                  rw [← h.2]
                  simp only [List.length_dropLast]
                  omega

theorem resetShape_historyStack (s s' : ClayState) (h : resetShape s = some s') :
    s'.historyStack = [] := by
  cases hp : jsSet s.positions s.originalPositions with
  | none =>
      simp only [resetShape, hp] at h
      exact Option.noConfusion h
  | some pos =>
      cases hr : s.restPositions with
      | none =>
          simp only [resetShape, hp, hr, Option.some.injEq] at h
          rw [← h]
      | some rest =>
          cases hq : jsSet rest s.originalPositions with
          | none =>
              simp only [resetShape, hp, hr, hq] at h
              exact Option.noConfusion h
          | some rest2 =>
              cases hv : s.velocities with
              | none =>
                  simp only [resetShape, hp, hr, hq, hv] at h
                  exact Option.noConfusion h
              | some vel =>
                  simp only [resetShape, hp, hr, hq, hv, Option.some.injEq] at h
                  rw [← h]

theorem changeShape_history_length (gf : ShapeKey → List Vec3) (sh : ShapeKey)
    (s : ClayState) :
    (changeShape gf sh s).historyStack.length ≤ s.historyStack.length := by
  simp only [changeShape]
  split
  · exact le_rfl
  · split <;> simp

theorem changeMaterial_historyStack (m : MaterialKey) (s : ClayState) :
    (changeMaterial m s).historyStack = s.historyStack := by
  simp only [changeMaterial]
  split
  · rfl
  · split <;> rfl

theorem updateJellyPhysics_historyStack (delta : ℝ) (s s' : ClayState)
    (h : updateJellyPhysics delta s = some s') :
    s'.historyStack = s.historyStack := by
  simp only [updateJellyPhysics] at h
  split at h
  · rw [← Option.some.inj h]
  · split at h
    · rw [← Option.some.inj h]
    · split at h
      · split at h
        · rw [← Option.some.inj h]
        · exact Option.noConfusion h
      · rw [← Option.some.inj h]

theorem reach_history_le (gf : ShapeKey → List Vec3) (s : ClayState) (hs : Reach gf s) :
    s.historyStack.length ≤ MAX_HISTORY := by
  induction hs with
  | init => simp [initState, MAX_HISTORY]
  | sculptStep u strength sculptRadius target hu h1 h2 h3 h4 ih =>
      rw [sculpt_historyStack]; exact ih
  | saveStep u hu ih => exact saveToHistory_length_le u ih
  | undoStep u u' b hu h ih => exact le_trans (undo_history_length u u' b h) ih
  | resetStep u u' hu h ih => rw [resetShape_historyStack u u' h]; simp
  | shapeStep u sh hu ih => exact le_trans (changeShape_history_length gf sh u) ih
  | materialStep u m hu ih => rw [changeMaterial_historyStack]; exact ih
  | physicsStep u u' delta hu h0 h ih => rw [updateJellyPhysics_historyStack delta u u' h]; exact ih

/-! ### Facts about the elastic step -/

theorem clamp_zero (q delta : ℝ) :
    max (-2 : ℝ) (min 2 ((0 + (q - q) * 15 * delta) * 0.85)) = 0 := by
  have h : (0 + (q - q) * 15 * delta) * 0.85 = 0 := by ring
  rw [h]
  norm_num

theorem jellyVertex_fixed (delta : ℝ) (p : Vec3) :
    jellyVertex delta p p ⟨0, 0, 0⟩ = (⟨0, 0, 0⟩, p) := by
  simp only [jellyVertex]
  rw [clamp_zero p.x delta, clamp_zero p.y delta, clamp_zero p.z delta]
  simp

theorem getD_replicate_self (n i : ℕ) (c : Vec3) :
    (List.replicate n c).getD i c = c := by
  simp only [List.getD_eq_getElem?_getD, List.getElem?_replicate]
  split <;> rfl

theorem updateJellyPhysics_run (delta : ℝ) (s : ClayState) (vel rest : List Vec3)
    (hj : materialIsJelly s.currentMaterial = true)
    (hvel : s.velocities = some vel) (hrest : s.restPositions = some rest) :
    updateJellyPhysics delta s = some { s with
      positions := ((List.range s.positions.length).map fun i =>
        jellyVertex delta (rest.getD i ⟨0, 0, 0⟩) (s.positions.getD i ⟨0, 0, 0⟩)
          (vel.getD i ⟨0, 0, 0⟩)).map Prod.snd,
      velocities := some (((List.range s.positions.length).map fun i =>
        jellyVertex delta (rest.getD i ⟨0, 0, 0⟩) (s.positions.getD i ⟨0, 0, 0⟩)
          (vel.getD i ⟨0, 0, 0⟩)).map Prod.fst) } := by
  have hcond : ¬ ¬ (materialIsJelly s.currentMaterial = true) := not_not_intro hj
  simp only [updateJellyPhysics, if_neg hcond, hvel, hrest]

/-! ### Claim theorems -/

/-- Claim C1: a `sculpt(target)` call maps every vertex of the buffer as
follows: a vertex whose vertical distance `dy = |v.y - target.y|` is at
least the configured influence radius is completely unchanged; otherwise,
with `targetRadius = clamp(|target.x|, 0.2, 3.5)`,
`factor = exp(-dy^2 / 0.1)` and `currentRadius = sqrt(v.x^2 + v.z^2)`, the
vertex is rebuilt at the unchanged angle `atan2(v.z, v.x)` with the blended
radius `currentRadius + (targetRadius - currentRadius) * factor * strength`,
keeping its y coordinate; and (for a strength in [0, 1], which covers the
tool range [0.01, 0.5]) the affected vertex's new distance from the axis is
exactly that blended radius.  Any target is clamped, never rejected. -/
theorem sculpt_pointwise_update (strength sculptRadius : ℝ) (target : Vec3) (s : ClayState) :
    ((sculpt strength sculptRadius target s).positions = s.positions.map (fun v =>
      if sculptRadius ≤ |v.y - target.y| then v
      else
        ⟨Real.cos (atan2 v.z v.x) * (Real.sqrt (v.x * v.x + v.z * v.z) +
            (max minRadius (min maxRadius |target.x|) - Real.sqrt (v.x * v.x + v.z * v.z)) *
            Real.exp (-(|v.y - target.y| * |v.y - target.y|) / 0.1) * strength),
         v.y,
         Real.sin (atan2 v.z v.x) * (Real.sqrt (v.x * v.x + v.z * v.z) +
            (max minRadius (min maxRadius |target.x|) - Real.sqrt (v.x * v.x + v.z * v.z)) *
            Real.exp (-(|v.y - target.y| * |v.y - target.y|) / 0.1) * strength)⟩))
    ∧ (0 ≤ strength → strength ≤ 1 →
        ∀ (i : ℕ) (v : Vec3), s.positions[i]? = some v → |v.y - target.y| < sculptRadius →
          ((sculpt strength sculptRadius target s).positions[i]?).map radiusOf
            = some (Real.sqrt (v.x * v.x + v.z * v.z) +
                (max minRadius (min maxRadius |target.x|) - Real.sqrt (v.x * v.x + v.z * v.z)) *
                Real.exp (-(|v.y - target.y| * |v.y - target.y|) / 0.1) * strength)) := by
  constructor
  · rw [sculpt_positions]
    apply List.map_congr_left
    intro v _
    by_cases hdy : |v.y - target.y| < sculptRadius
    · rw [if_neg (not_le.mpr hdy), sculptVertex_affected strength sculptRadius target v hdy]
    · rw [if_pos (not_lt.mp hdy)]
      simp only [sculptVertex, if_neg hdy]
  · intro hs0 hs1 i v hv hdy
    rw [sculpt_positions, List.getElem?_map, hv, Option.map_some', Option.map_some']
    rw [radiusOf_sculptVertex strength sculptRadius target v hs0 hs1 hdy]
    simp only [radiusOf]
    rw [mul_assoc]

/-- Witness for C1, evaluated on a one-vertex buffer at `⟨1,0,0⟩`, target
`⟨2,0,0⟩`, strength 1, influence radius 1. -/
theorem sculpt_pointwise_update_witness :
    ((sculpt 1 1 ⟨2, 0, 0⟩ sculptDemo).positions[0]?).map radiusOf
      = some (Real.sqrt (1 * 1 + 0 * 0) +
          (max minRadius (min maxRadius |(2 : ℝ)|) - Real.sqrt (1 * 1 + 0 * 0)) *
          Real.exp (-(|(0 : ℝ) - 0| * |(0 : ℝ) - 0|) / 0.1) * 1) :=
  (sculpt_pointwise_update 1 1 ⟨2, 0, 0⟩ sculptDemo).2 zero_le_one le_rfl 0 ⟨1, 0, 0⟩ rfl
    (by simp)

/-- Claim C2: a single `sculpt` call never changes the angular position
`atan2(v.z, v.x)` of any vertex around the rotation axis — only the radius
(for a positive strength at most 1, which covers the tool range
[0.01, 0.5]). -/
theorem sculpt_preserves_angle (strength sculptRadius : ℝ) (target : Vec3) (s : ClayState)
    (hs0 : 0 < strength) (hs1 : strength ≤ 1) (i : ℕ) :
    ((sculpt strength sculptRadius target s).positions[i]?).map (fun v => atan2 v.z v.x)
      = (s.positions[i]?).map (fun v => atan2 v.z v.x) := by
  rw [sculpt_positions, List.getElem?_map]
  cases hv : s.positions[i]? with
  | none => rfl
  | some v =>
      simp only [Option.map_some']
      rw [atan2_sculptVertex strength sculptRadius target v hs0 hs1]

/-- Witness for C2 on the same concrete one-vertex input. -/
theorem sculpt_preserves_angle_witness :
    ((sculpt 1 1 ⟨2, 0, 0⟩ sculptDemo).positions[0]?).map (fun v => atan2 v.z v.x)
      = (sculptDemo.positions[0]?).map (fun v => atan2 v.z v.x) :=
  sculpt_preserves_angle 1 1 ⟨2, 0, 0⟩ sculptDemo one_pos le_rfl 0

/-- Claim C9: fix a target and repeat `sculpt` at it (strength in [0, 1],
covering the tool range [0.01, 0.5]).  For a vertex inside the influence
cutoff, the buffer evolves vertex-wise by iterating the per-vertex update;
at every call the new radius lies between the previous radius and
`targetRadius = clamp(|target.x|, 0.2, 3.5)`; and once the radius is inside
[0.2, 3.5] it stays inside for all later calls. -/
theorem sculpt_radius_monotone (strength sculptRadius : ℝ) (target : Vec3)
    (s : ClayState) (i : ℕ) (v : Vec3)
    (hs0 : 0 ≤ strength) (hs1 : strength ≤ 1)
    (hv : s.positions[i]? = some v)
    (hdy : |v.y - target.y| < sculptRadius) :
    (∀ n, ((fun st => sculpt strength sculptRadius target st)^[n] s).positions[i]?
        = some ((sculptVertex strength sculptRadius target)^[n] v)) ∧
    (∀ n,
      min (radiusOf ((sculptVertex strength sculptRadius target)^[n] v))
          (max minRadius (min maxRadius |target.x|))
        ≤ radiusOf ((sculptVertex strength sculptRadius target)^[n + 1] v) ∧
      radiusOf ((sculptVertex strength sculptRadius target)^[n + 1] v)
        ≤ max (radiusOf ((sculptVertex strength sculptRadius target)^[n] v))
              (max minRadius (min maxRadius |target.x|))) ∧
    (∀ n m, n ≤ m →
      radiusOf ((sculptVertex strength sculptRadius target)^[n] v)
        ∈ Set.Icc minRadius maxRadius →
      radiusOf ((sculptVertex strength sculptRadius target)^[m] v)
        ∈ Set.Icc minRadius maxRadius) := by
  have hdyn : ∀ n, |((sculptVertex strength sculptRadius target)^[n] v).y - target.y|
      < sculptRadius := by
    intro n
    rw [sculptVertex_iterate_y]
    exact hdy
  have hstep : ∀ n,
      radiusOf ((sculptVertex strength sculptRadius target)^[n + 1] v)
        = radiusOf ((sculptVertex strength sculptRadius target)^[n] v) +
          (max minRadius (min maxRadius |target.x|) -
            radiusOf ((sculptVertex strength sculptRadius target)^[n] v)) *
          (Real.exp (-(|((sculptVertex strength sculptRadius target)^[n] v).y - target.y| *
              |((sculptVertex strength sculptRadius target)^[n] v).y - target.y|) / 0.1) *
            strength) := by
    intro n
    rw [Function.iterate_succ_apply']
    exact radiusOf_sculptVertex strength sculptRadius target _ hs0 hs1 (hdyn n)
  have hbetween : ∀ n,
      min (radiusOf ((sculptVertex strength sculptRadius target)^[n] v))
          (max minRadius (min maxRadius |target.x|))
        ≤ radiusOf ((sculptVertex strength sculptRadius target)^[n + 1] v) ∧
      radiusOf ((sculptVertex strength sculptRadius target)^[n + 1] v)
        ≤ max (radiusOf ((sculptVertex strength sculptRadius target)^[n] v))
              (max minRadius (min maxRadius |target.x|)) := by
    intro n
    rw [hstep n]
    exact blend_between _ _ _
      (gaussian_strength_nonneg strength _ hs0)
      (gaussian_strength_le_one strength _ hs0 hs1)
  refine ⟨sculpt_iterate_getElem? strength sculptRadius target s i v hv, hbetween, ?_⟩
  intro n m hnm hmem
  obtain ⟨k, rfl⟩ := Nat.exists_eq_add_of_le hnm
  induction k with
  | zero => simpa using hmem
  | succ k ih =>
      have hmem2 := ih (Nat.le_add_right n k)
      obtain ⟨h1, h2⟩ := hbetween (n + k)
      rw [← Nat.add_assoc]
      constructor
      · exact le_trans (le_min hmem2.1 (targetRadius_lb _)) h1
      · exact le_trans h2 (max_le hmem2.2 (targetRadius_ub _))

/-- Witness for C9: the buffer-level iteration conclusion at one step, on
the concrete one-vertex input. -/
theorem sculpt_radius_monotone_witness :
    ((fun st => sculpt 1 1 ⟨2, 0, 0⟩ st)^[1] sculptDemo).positions[0]?
      = some ((sculptVertex 1 1 ⟨2, 0, 0⟩)^[1] ⟨1, 0, 0⟩) :=
  (sculpt_radius_monotone 1 1 ⟨2, 0, 0⟩ sculptDemo 0 ⟨1, 0, 0⟩ zero_le_one le_rfl rfl
    (by simp)).1 1

/-- Claim C3: in an elastic-mode state with both buffers present, one
`updateJellyPhysics(delta)` step updates every vertex by exactly:
`velocity += (restPosition - position) * 15 * delta` componentwise, then
`velocity *= 0.85`, then each component is clamped to [-2, 2], then
`position += velocity * delta` — the constants 15.0, 0.85 and 2.0 are baked
into the update.  Starting from `position == restPosition` and zero
velocity, any number of repeated steps leaves the state unchanged. -/
theorem updateJellyPhysics_step_spec (delta : ℝ) (s : ClayState) (vel rest : List Vec3)
    (hj : materialIsJelly s.currentMaterial = true)
    (hvel : s.velocities = some vel)
    (hrest : s.restPositions = some rest) :
    (∃ pos2 vel2 : List Vec3,
      updateJellyPhysics delta s
          = some { s with positions := pos2, velocities := some vel2 } ∧
      pos2.length = s.positions.length ∧ vel2.length = s.positions.length ∧
      (∀ (i : ℕ) (v r w : Vec3),
        s.positions[i]? = some v → rest[i]? = some r → vel[i]? = some w →
        vel2[i]? = some (⟨max (-2) (min 2 ((w.x + (r.x - v.x) * 15 * delta) * 0.85)),
                          max (-2) (min 2 ((w.y + (r.y - v.y) * 15 * delta) * 0.85)),
                          max (-2) (min 2 ((w.z + (r.z - v.z) * 15 * delta) * 0.85))⟩ : Vec3) ∧
        pos2[i]? = some
          (⟨v.x + max (-2) (min 2 ((w.x + (r.x - v.x) * 15 * delta) * 0.85)) * delta,
            v.y + max (-2) (min 2 ((w.y + (r.y - v.y) * 15 * delta) * 0.85)) * delta,
            v.z + max (-2) (min 2 ((w.z + (r.z - v.z) * 15 * delta) * 0.85)) * delta⟩ : Vec3))) ∧
    (s.positions = rest → vel = List.replicate s.positions.length ⟨0, 0, 0⟩ →
      ∀ k : ℕ, jellyIter delta k s = s) := by
  constructor
  · refine ⟨(((List.range s.positions.length).map fun i =>
        jellyVertex delta (rest.getD i ⟨0, 0, 0⟩) (s.positions.getD i ⟨0, 0, 0⟩)
          (vel.getD i ⟨0, 0, 0⟩)).map Prod.snd),
      (((List.range s.positions.length).map fun i =>
        jellyVertex delta (rest.getD i ⟨0, 0, 0⟩) (s.positions.getD i ⟨0, 0, 0⟩)
          (vel.getD i ⟨0, 0, 0⟩)).map Prod.fst),
      updateJellyPhysics_run delta s vel rest hj hvel hrest, by simp, by simp, ?_⟩
    intro i v r w hv hr hw
    have hi : i < s.positions.length := lt_length_of_getElem? hv
    constructor
    · rw [List.getElem?_map, List.getElem?_map, List.getElem?_range hi,
        Option.map_some', Option.map_some', getD_of_getElem? _ hv,
        getD_of_getElem? _ hr, getD_of_getElem? _ hw]
      rfl
    · rw [List.getElem?_map, List.getElem?_map, List.getElem?_range hi,
        Option.map_some', Option.map_some', getD_of_getElem? _ hv,
        getD_of_getElem? _ hr, getD_of_getElem? _ hw]
      rfl
  · intro hpr hv0 k
    have hfix : (fun t => (updateJellyPhysics delta t).getD t) s = s := by
      have hpairs : ((List.range s.positions.length).map fun i =>
          jellyVertex delta (rest.getD i ⟨0, 0, 0⟩) (s.positions.getD i ⟨0, 0, 0⟩)
            (vel.getD i ⟨0, 0, 0⟩))
          = (List.range s.positions.length).map fun i =>
              ((⟨0, 0, 0⟩ : Vec3), s.positions.getD i ⟨0, 0, 0⟩) := by
        apply List.map_congr_left
        intro i hi
        rw [← hpr, hv0, getD_replicate_self]
        exact jellyVertex_fixed delta _
      have hsnd : (((List.range s.positions.length).map fun i =>
          ((⟨0, 0, 0⟩ : Vec3), s.positions.getD i ⟨0, 0, 0⟩)).map Prod.snd)
          = s.positions := by
        rw [List.map_map]
        exact map_getD_range s.positions ⟨0, 0, 0⟩
      have hfst : (((List.range s.positions.length).map fun i =>
          ((⟨0, 0, 0⟩ : Vec3), s.positions.getD i ⟨0, 0, 0⟩)).map Prod.fst)
          = List.replicate s.positions.length ⟨0, 0, 0⟩ := by
        have hconst : (Prod.fst ∘ fun i =>
            ((⟨0, 0, 0⟩ : Vec3), s.positions.getD i ⟨0, 0, 0⟩)) = fun _ => (⟨0, 0, 0⟩ : Vec3) :=
          rfl
        rw [List.map_map, hconst, List.map_const', List.length_range]
      have hstep : updateJellyPhysics delta s = some s := by
        rw [updateJellyPhysics_run delta s vel rest hj hvel hrest, hpairs, hsnd, hfst,
          ← hv0, ← hvel]
      show (updateJellyPhysics delta s).getD s = s
      rw [hstep]
      rfl
    rw [jellyIter]
    exact @Function.iterate_fixed ClayState (fun t => (updateJellyPhysics delta t).getD t) s hfix k

/-- Witness for C3: five elastic steps on the at-rest one-vertex jelly state
leave it unchanged. -/
theorem updateJellyPhysics_step_spec_witness :
    jellyIter 1 5 jellyDemo = jellyDemo :=
  (updateJellyPhysics_step_spec 1 jellyDemo [⟨0, 0, 0⟩] [⟨1, 2, 3⟩] rfl rfl rfl).2 rfl rfl 5

/-- Claim C6 (refuted by the code): the claim says every core operation is
exception-free on every reachable state; but after selecting the jelly
material and then a non-jelly material, `resetShape()` reaches
`velocities.fill(0)` with `velocities === null` and throws a `TypeError`
(modelled as `none`).  The state is reachable by two material selections
from start-up. -/
theorem resetShape_raises :
    Reach gfDemo s2Demo ∧ resetShape s2Demo = none := by
  constructor
  · exact Reach.materialStep s1Demo .clay (Reach.materialStep (initState gfDemo) .jelly Reach.init)
  · rfl

/-- Claim C7 (refuted by the code): selecting a non-elastic material sets
only `velocities = null` and retains `restPositions`; after a subsequent
`changeShape` with the non-elastic material selected, the retained
`restPositions` buffer (1 vertex here; 4225 for the real cylinder) no longer
matches the new vertex buffer's length (2 here; 4998 for the real cube). -/
theorem changeMaterial_retains_restPositions :
    s2Demo.restPositions = some [⟨0, 0, 0⟩] ∧
    s2Demo.velocities = none ∧
    materialIsJelly s2Demo.currentMaterial = false ∧
    Reach gfDemo s3Demo ∧
    s3Demo.restPositions = some [⟨0, 0, 0⟩] ∧
    s3Demo.positions.length = 2 := by
  refine ⟨rfl, rfl, rfl, ?_, rfl, rfl⟩
  exact Reach.shapeStep s2Demo .cube
    (Reach.materialStep s1Demo .clay
      (Reach.materialStep (initState gfDemo) .jelly Reach.init))

/-- Claim C4: in every reachable state the history stack holds at most 20
snapshots; `saveToHistory` appends a copy of the current vertex buffer as
the most recent entry, and a push from a full (20-entry) stack drops exactly
the single oldest entry, keeping the other entries and their order. -/
theorem historyStack_bounded (gf : ShapeKey → List Vec3) (s : ClayState)
    (hs : Reach gf s) (t : ClayState) :
    s.historyStack.length ≤ 20 ∧
    (t.historyStack.length < 20 →
      (saveToHistory t).historyStack = t.historyStack ++ [t.positions]) ∧
    (t.historyStack.length = 20 →
      (saveToHistory t).historyStack = t.historyStack.tail ++ [t.positions]) := by
  refine ⟨reach_history_le gf s hs, ?_, ?_⟩
  · intro hlt
    have hcond : ¬ MAX_HISTORY < (t.historyStack ++ [t.positions]).length := by
      simp only [MAX_HISTORY, List.length_append, List.length_cons, List.length_nil]
      omega
    simp only [saveToHistory, if_neg hcond]
  · intro heq
    have hcond : MAX_HISTORY < (t.historyStack ++ [t.positions]).length := by
      simp only [MAX_HISTORY, List.length_append, List.length_cons, List.length_nil]
      omega
    simp only [saveToHistory, if_pos hcond]
    refine tail_append_singleton _ _ ?_
    intro hnil
    rw [hnil] at heq
    simp at heq

/-- Witness for C4: the push description evaluated on the concrete
one-snapshot state, with reachability discharged at the start-up state. -/
theorem historyStack_bounded_witness :
    (saveToHistory undoDemo).historyStack = undoDemo.historyStack ++ [undoDemo.positions] :=
  (historyStack_bounded gfDemo (initState gfDemo) Reach.init undoDemo).2.1 (by simp [undoDemo])

/-- Contract of `undo()` on length-consistent states: on an empty history
stack it returns `false` and leaves the state untouched; on a non-empty
stack (snapshot and buffer lengths parallel) it pops the most recent
snapshot, writes it into the live vertex buffer, returns `true`, leaves the
other fields alone, and overwrites `restPositions` with the snapshot exactly
when that buffer exists. -/
theorem undo_spec (s : ClayState) :
    (s.historyStack = [] → undo s = some (false, s)) ∧
    (∀ snap : List Vec3, s.historyStack.getLast? = some snap →
      snap.length = s.positions.length →
      (∀ r : List Vec3, s.restPositions = some r → snap.length = r.length) →
      ∃ s' : ClayState, undo s = some (true, s') ∧
        s'.positions = snap ∧
        s'.historyStack = s.historyStack.dropLast ∧
        s'.velocities = s.velocities ∧
        s'.originalPositions = s.originalPositions ∧
        s'.currentMaterial = s.currentMaterial ∧
        s'.currentShape = s.currentShape ∧
        (s.restPositions = none → s'.restPositions = none) ∧
        (s.restPositions ≠ none → s'.restPositions = some snap)) := by
  constructor
  · intro hE
    have h0 : s.historyStack.getLast? = none := by rw [hE]; rfl
    simp only [undo, h0]
  · intro snap hlast hlen hrest
    have hpos := jsSet_eq_of_length s.positions snap hlen
    cases hr : s.restPositions with
    | none =>
        refine ⟨{ s with positions := snap, historyStack := s.historyStack.dropLast },
          ?_, rfl, rfl, rfl, rfl, rfl, rfl, ?_, ?_⟩
        · simp only [undo, hlast, hpos, hr]
        · intro _
          exact hr
        · intro hne
          exact absurd rfl hne
    | some r =>
        have hq := jsSet_eq_of_length r snap (hrest r hr)
        refine ⟨{ s with positions := snap, historyStack := s.historyStack.dropLast,
                         restPositions := some snap },
          ?_, rfl, rfl, rfl, rfl, rfl, rfl, ?_, fun _ => rfl⟩
        · simp only [undo, hlast, hpos, hr, hq]
        · intro h0
          exact Option.noConfusion h0

/-- Claim C5 (refuted by the code): the claim says `undo()` on a non-empty
stack always returns success and overwrites `restPositions` with the
restored snapshot.  But a stale `restPositions` buffer retained by
`changeMaterial` (the same slip as C6/C7) can be shorter than the snapshot;
`restPositions.set(previousState)` then throws a `RangeError` (`none`), so
`undo()` on a reachable state with a non-empty history raises instead of
returning success.  The empty-stack half and the length-consistent contract
are proved in `undo_spec` above. -/
theorem undo_raises_on_stale_rest :
    Reach gfDemo (saveToHistory s3Demo) ∧
    (saveToHistory s3Demo).historyStack ≠ [] ∧
    undo (saveToHistory s3Demo) = none := by
  refine ⟨?_, ?_, rfl⟩
  · exact Reach.saveStep s3Demo
      (Reach.shapeStep s2Demo .cube
        (Reach.materialStep s1Demo .clay
          (Reach.materialStep (initState gfDemo) .jelly Reach.init)))
  · intro h
    exact List.noConfusion h

/-- Evaluation of the `undo` contract on the concrete one-snapshot state
`undoDemo`. -/
theorem undo_spec_witness :
    ∃ s' : ClayState, undo undoDemo = some (true, s') ∧
      s'.positions = [⟨1, 2, 3⟩] ∧
      s'.historyStack = undoDemo.historyStack.dropLast ∧
      s'.velocities = undoDemo.velocities ∧
      s'.originalPositions = undoDemo.originalPositions ∧
      s'.currentMaterial = undoDemo.currentMaterial ∧
      s'.currentShape = undoDemo.currentShape ∧
      (undoDemo.restPositions = none → s'.restPositions = none) ∧
      (undoDemo.restPositions ≠ none → s'.restPositions = some [⟨1, 2, 3⟩]) :=
  (undo_spec undoDemo).2 [⟨1, 2, 3⟩] rfl rfl
    (fun r hr => by
      simp only [undoDemo, Option.some.injEq] at hr
      subst hr
      rfl)

/-- Claim C8: `resetShape()` writes the immutable original snapshot back
into the live vertex buffer and empties the history stack; when elastic
state exists (both buffers present, lengths parallel as in every
uncorrupted state) it also sets `restPositions` to the original snapshot and
zeroes every velocity entry. -/
theorem resetShape_spec (s : ClayState)
    (horig : s.originalPositions.length = s.positions.length) :
    (s.restPositions = none → resetShape s
        = some { s with positions := s.originalPositions, historyStack := [] }) ∧
    (∀ r vel : List Vec3, s.restPositions = some r → s.velocities = some vel →
      r.length = s.positions.length →
      resetShape s = some { s with positions := s.originalPositions, historyStack := [],
                                   restPositions := some s.originalPositions,
                                   velocities := some (vel.map fun _ => ⟨0, 0, 0⟩) }) := by
  have hpos := jsSet_eq_of_length s.positions s.originalPositions horig
  constructor
  · intro hr
    simp only [resetShape, hpos, hr]
  · intro r vel hr hvel hrlen
    have hq := jsSet_eq_of_length r s.originalPositions (by rw [horig, hrlen])
    simp only [resetShape, hpos, hr, hq, hvel]

/-- Witness for C8 on the concrete state `undoDemo` (both elastic buffers
present). -/
theorem resetShape_spec_witness :
    resetShape undoDemo
      = some { undoDemo with positions := undoDemo.originalPositions, historyStack := [],
                             restPositions := some undoDemo.originalPositions,
                             velocities := some ([(⟨4, 5, 6⟩ : Vec3)].map fun _ => ⟨0, 0, 0⟩) } :=
  (resetShape_spec undoDemo rfl).2 [⟨7, 8, 9⟩] [⟨4, 5, 6⟩] rfl rfl rfl

/-- Claim C10: a successful `undo()` leaves the velocity buffer exactly
unchanged — it restores positions and rest positions but never zeroes or
modifies velocities — whereas `resetShape()` (when elastic state exists)
zeroes every velocity entry. -/
theorem undo_preserves_velocities (s : ClayState) :
    (∀ (b : Bool) (s' : ClayState), undo s = some (b, s') → s'.velocities = s.velocities) ∧
    (∀ (vel : List Vec3) (s2 : ClayState), s.velocities = some vel →
      resetShape s = some s2 → s.restPositions ≠ none →
      s2.velocities = some (vel.map fun _ => ⟨0, 0, 0⟩)) := by
  constructor
  · intro b s' h
    cases hl : s.historyStack.getLast? with
    | none =>
        simp only [undo, hl, Option.some.injEq, Prod.mk.injEq] at h
        rw [← h.2]
    | some prev =>
        cases hp : jsSet s.positions prev with
        | none =>
            simp only [undo, hl, hp] at h
            exact Option.noConfusion h
        | some pos =>
            cases hr : s.restPositions with
            | none =>
                simp only [undo, hl, hp, hr, Option.some.injEq, Prod.mk.injEq] at h
                rw [← h.2]
            | some rest =>
                cases hq : jsSet rest prev with
                | none =>
                    simp only [undo, hl, hp, hr, hq] at h
                    exact Option.noConfusion h
                | some rest2 =>
                    simp only [undo, hl, hp, hr, hq, Option.some.injEq, Prod.mk.injEq] at h
                    rw [← h.2]
  · intro vel s2 hvel h hne
    cases hp : jsSet s.positions s.originalPositions with
    | none =>
        simp only [resetShape, hp] at h
        exact Option.noConfusion h
    | some pos =>
        cases hr : s.restPositions with
        | none => exact absurd hr hne
        | some rest =>
            cases hq : jsSet rest s.originalPositions with
            | none =>
                simp only [resetShape, hp, hr, hq] at h
                exact Option.noConfusion h
            | some rest2 =>
                simp only [resetShape, hp, hr, hq, hvel, Option.some.injEq] at h
                rw [← h]

/-- Witness for C10 on the concrete state `undoDemo`. -/
theorem undo_preserves_velocities_witness :
    ({ undoDemo with positions := [⟨1, 2, 3⟩], historyStack := ([] : List (List Vec3)),
                     restPositions := some [⟨1, 2, 3⟩] } : ClayState).velocities
      = undoDemo.velocities :=
  (undo_preserves_velocities undoDemo).1 true _ rfl

end Clay
